import Mathlib

/-!
Verification of the snapshot matcher/state machine, the inline-snapshot
patcher and the snapshot literal generator of this repository.

Source files embedded here:
* `State.ts` (src/unnamed/part_001): `SnapshotState` with `compare`, `match`,
  `fail`, `save`, `removeUncheckedKeys`, `_addSnapshot`.
* `inline_snapshots.ts` (src/packages/jest-snapshot/src/inline_snapshots.ts):
  `traverseAst`, `saveSnapshotsForFile`, `groupSnapshotsByFrame`.
* the literal generator (src/unnamed/part_000): `generateAstFromValue`,
  `getSymbolAstFromStandardSymbol`, `generateSnapshot`.
* `types.ts` (tail of src/packages/.../inline_snapshots.ts file): `SnapshotValue`.

Machine integers do not occur; JavaScript numbers are modelled as either `NaN`
or an integer (`JsNum`), which is all the embedded code distinguishes.
Reference identity of JS objects, arrays, functions and symbols is modelled by
an `id : Nat` carried by the value; two values are the same JS reference if
and only if they are the same Lean term (in particular the same `id`); the
modelling convention is that distinct allocations get distinct ids.
-/

/-- JavaScript number: `NaN` or a finite value (modelled as an integer). -/
inductive JsNum where
  | nan
  | fin (v : Int)
deriving DecidableEq, Repr

mutual
/-- The `SnapshotValue` type of `types.ts`:
`string | symbol | {[key: string]: SnapshotValue} | Array<SnapshotValue> |
Function | number | boolean | null | undefined` (plus JS bigints, which
`generateAstFromValue` also handles).  `sym` stores the result of
`Symbol.prototype.toString()` (the string `Symbol(description)`); `obj`,
`arr`, `func` and `sym` carry a reference id (see module comment). -/
inductive JsValue where
  | str (s : String)
  | num (n : JsNum)
  | bigintV (i : Int)
  | boolean (b : Bool)
  | nullV
  | undefV
  | sym (id : Nat) (toStr : String)
  | func (id : Nat)
  | obj (id : Nat) (fields : JsFields)
  | arr (id : Nat) (elems : JsElems)
deriving DecidableEq, Repr

/-- Enumerable own properties of a record, in `for .. in` iteration order. -/
inductive JsFields where
  | nil
  | cons (key : String) (value : JsValue) (rest : JsFields)
deriving DecidableEq, Repr

/-- Elements of a JS array, in order. -/
inductive JsElems where
  | nil
  | cons (value : JsValue) (rest : JsElems)
deriving DecidableEq, Repr
end

/-- The JS `typeof` operator on `SnapshotValue`s (`typeof null = "object"`). -/
def typeofJs : JsValue → String
  | .str _ => "string"
  | .num _ => "number"
  | .bigintV _ => "bigint"
  | .boolean _ => "boolean"
  | .nullV => "object"
  | .undefV => "undefined"
  | .sym _ _ => "symbol"
  | .func _ => "function"
  | .obj _ _ => "object"
  | .arr _ _ => "object"

/-- JS truthiness of a `SnapshotValue`. -/
def jsTruthy : JsValue → Bool
  | .str s => s ≠ ""
  | .num .nan => false
  | .num (.fin v) => v ≠ 0
  | .bigintV i => i ≠ 0
  | .boolean b => b
  | .nullV => false
  | .undefV => false
  | .sym _ _ => true
  | .func _ => true
  | .obj _ _ => true
  | .arr _ _ => true

/-- `typeof v === 'number' && Number.isNaN(v)`. -/
def isNaNNumber : JsValue → Bool
  | .num .nan => true
  | _ => false

/-- `Symbol.prototype.toString()` of a symbol value (unused default for
non-symbols; `compare` only calls it after a `typeof` check). -/
def symToStringOf : JsValue → String
  | .sym _ s => s
  | _ => ""

/-- JS strict equality `===` on `SnapshotValue`s.  For objects, arrays,
functions and symbols it is reference identity (equal ids under the
convention that distinct allocations have distinct ids); `NaN === NaN` is
false; values of different kinds are never strictly equal. -/
def jsStrictEq : JsValue → JsValue → Bool
  | .str a, .str b => a = b
  | .num .nan, _ => false
  | _, .num .nan => false
  | .num (.fin a), .num (.fin b) => a = b
  | .bigintV a, .bigintV b => a = b
  | .boolean a, .boolean b => a = b
  | .nullV, .nullV => true
  | .undefV, .undefV => true
  | .sym a _, .sym b _ => a = b
  | .func a, .func b => a = b
  | .obj a _, .obj b _ => a = b
  | .arr a _, .arr b _ => a = b
  | _, _ => false

/-- First field with the given key (JS objects have unique keys, so this is
the property lookup). -/
def getField (k : String) : JsFields → Option JsValue
  | .nil => Option.none
  | .cons k2 v rest => if k2 = k then some v else getField k rest

/-- Number of enumerable keys of a record. -/
def fieldsLen : JsFields → Nat
  | .nil => 0
  | .cons _ _ rest => fieldsLen rest + 1

/-- Number of elements (= enumerable index keys) of an array. -/
def elemsLen : JsElems → Nat
  | .nil => 0
  | .cons _ rest => elemsLen rest + 1

/-- Element at an index. -/
def elemsGet : JsElems → Nat → Option JsValue
  | .nil, _ => Option.none
  | .cons v _, 0 => some v
  | .cons _ rest, n + 1 => elemsGet rest n

/-- A string that is a canonical array index (`"0"`, `"17"`, ...), as JS
property access on arrays treats it. -/
def parseIndexKey (s : String) : Option Nat :=
  match s.toNat? with
  | some n => if toString n = s then some n else Option.none
  | Option.none => Option.none

/-- JS property read `e?.[k]` with a string key: `undefined` when absent.
(Array built-ins such as `length` are not enumerable and are not modelled;
the comparator only reads keys produced by `for .. in` on the other side.) -/
def getPropStr (e : JsValue) (k : String) : JsValue :=
  match e with
  | .obj _ fs => (getField k fs).getD .undefV
  | .arr _ xs =>
    match parseIndexKey k with
    | some i => (elemsGet xs i).getD .undefV
    | Option.none => .undefV
  | _ => .undefV

/-- JS property read `e?.[toString i]` for an index key coming from `for .. in`
over an array.  On an object this is the lookup of the decimal string; on an
array it is the element at `i` (a canonical index string). -/
def getPropNat (e : JsValue) (i : Nat) : JsValue :=
  match e with
  | .obj _ fs => (getField (toString i) fs).getD .undefV
  | .arr _ xs => (elemsGet xs i).getD .undefV
  | _ => .undefV

/-- Enumerable key count of a value as counted by `for .. in` (the
`expectedKeyCount` loop of `compare`). -/
def enumKeyCount : JsValue → Nat
  | .obj _ fs => fieldsLen fs
  | .arr _ xs => elemsLen xs
  | _ => 0

mutual
/-- `SnapshotState.compare` (State.ts lines 190-255), the deep-equal
comparator.  Branches in source order: differing `typeof` ⇒ false; functions
⇒ true; `NaN` vs `NaN` ⇒ true; symbols by `toString()`; truthy objects run the
`for .. in` key loop (each key of `received` recursively compared against
`expected`'s same key), then the two-way key-count check — and then fall
through, like every remaining case, to the final
`return received === expected`. -/
def jsCompare (received expected : JsValue) : Bool :=
  if typeofJs received ≠ typeofJs expected then false
  else if typeofJs received = "function" then true
  else if isNaNNumber received && isNaNNumber expected then true
  else if typeofJs received = "symbol" then symToStringOf received = symToStringOf expected
  else
    match received with
    | .obj i fs =>
      -- `received && typeof received === 'object'`: an object is always truthy
      if ¬ jsTruthy expected then false
      else if ¬ compareFields fs expected then false
      else if fieldsLen fs ≠ enumKeyCount expected then false
      else jsStrictEq (.obj i fs) expected
    | .arr i xs =>
      if ¬ jsTruthy expected then false
      else if ¬ compareElems 0 xs expected then false
      else if elemsLen xs ≠ enumKeyCount expected then false
      else jsStrictEq (.arr i xs) expected
    | v => jsStrictEq v expected

/-- The `for (const key in received)` recursion of `compare` over a record:
every key of `received` must recursively compare against `expected`'s value at
that key. -/
def compareFields (fs : JsFields) (expected : JsValue) : Bool :=
  match fs with
  | .nil => true
  | .cons k v rest => jsCompare v (getPropStr expected k) && compareFields rest expected

/-- The `for (const key in received)` recursion of `compare` over an array:
index keys `i`, `i+1`, ... of `received` against `expected`. -/
def compareElems (i : Nat) (xs : JsElems) (expected : JsValue) : Bool :=
  match xs with
  | .nil => true
  | .cons v rest => jsCompare v (getPropNat expected i) && compareElems (i + 1) rest expected
end

/-- Conversion of a field list to a Lean list, for stating membership. -/
def fieldsToList : JsFields → List (String × JsValue)
  | .nil => []
  | .cons k v rest => (k, v) :: fieldsToList rest

/-- Conversion of an element list to a Lean list, for stating membership. -/
def elemsToList : JsElems → List JsValue
  | .nil => []
  | .cons v rest => v :: elemsToList rest

/-- Drop of the first `n` elements, for relating `compareElems` offsets. -/
def elemsDrop : Nat → JsElems → JsElems
  | 0, xs => xs
  | _ + 1, .nil => .nil
  | n + 1, .cons _ rest => elemsDrop n rest

mutual
/-- A `SnapshotValue` that an actual JS runtime can hold: record keys are
pairwise distinct (a JS object cannot carry a duplicate property key).  Every
value is finite by construction, so self-referential records are excluded. -/
def wfV : JsValue → Bool
  | .obj _ fs => wfFields fs
  | .arr _ xs => wfElems xs
  | _ => true

/-- Well-formedness of a field list: the key of each field does not occur
again later, and every value is well-formed. -/
def wfFields : JsFields → Bool
  | .nil => true
  | .cons k v rest => (getField k rest).isNone && wfV v && wfFields rest

/-- Well-formedness of the elements of an array. -/
def wfElems : JsElems → Bool
  | .nil => true
  | .cons v rest => wfV v && wfElems rest
end

/-- Single-motive structural induction for `JsFields` (the generated mutual
recursor has several motives, which the `induction` tactic cannot use). -/
def JsFields.inductOn (P : JsFields → Prop) (hnil : P .nil)
    (hcons : ∀ k v rest, P rest → P (.cons k v rest)) : ∀ fs, P fs
  | .nil => hnil
  | .cons k v rest => hcons k v rest (JsFields.inductOn P hnil hcons rest)
termination_by fs => sizeOf fs

/-- Single-motive structural induction for `JsElems`. -/
def JsElems.inductOn (P : JsElems → Prop) (hnil : P .nil)
    (hcons : ∀ v rest, P rest → P (.cons v rest)) : ∀ xs, P xs
  | .nil => hnil
  | .cons v rest => hcons v rest (JsElems.inductOn P hnil hcons rest)
termination_by xs => sizeOf xs

theorem getField_of_wf (k : String) (v : JsValue) :
    ∀ fs : JsFields, wfFields fs = true → (k, v) ∈ fieldsToList fs →
      getField k fs = some v := by
  intro fs
  induction fs using JsFields.inductOn with
  | hnil => intro _ h; simp [fieldsToList] at h
  | hcons k2 v2 rest ih =>
    intro hwf hmem
    simp only [wfFields, Bool.and_eq_true] at hwf
    simp only [fieldsToList, List.mem_cons, Prod.mk.injEq] at hmem
    rcases hmem with ⟨hk, hv⟩ | hmem
    · subst hk; subst hv; simp [getField]
    · have hrest := ih hwf.2 hmem
      by_cases hk : k2 = k
      · subst hk
        have : getField k2 rest ≠ Option.none := by
          rw [hrest]; simp
        have hnone := hwf.1.1
        rw [Option.isNone_iff_eq_none] at hnone
        exact absurd hnone this
      · simpa [getField, hk] using hrest

theorem wfV_of_field_mem {k : String} {v : JsValue} :
    ∀ fs : JsFields, wfFields fs = true → (k, v) ∈ fieldsToList fs → wfV v = true := by
  intro fs
  induction fs using JsFields.inductOn with
  | hnil => intro _ h; simp [fieldsToList] at h
  | hcons k2 v2 rest ih =>
    intro hwf hmem
    simp only [wfFields, Bool.and_eq_true] at hwf
    simp only [fieldsToList, List.mem_cons, Prod.mk.injEq] at hmem
    rcases hmem with ⟨_, hv⟩ | hmem
    · subst hv; exact hwf.1.2
    · exact ih hwf.2 hmem

theorem wfV_of_elem_mem {v : JsValue} :
    ∀ xs : JsElems, wfElems xs = true → v ∈ elemsToList xs → wfV v = true := by
  intro xs
  induction xs using JsElems.inductOn with
  | hnil => intro _ h; simp [elemsToList] at h
  | hcons v2 rest ih =>
    intro hwf hmem
    simp only [wfElems, Bool.and_eq_true] at hwf
    simp only [elemsToList, List.mem_cons] at hmem
    rcases hmem with hv | hmem
    · subst hv; exact hwf.1
    · exact ih hwf.2 hmem

theorem sizeOf_of_field_mem {k : String} {v : JsValue} :
    ∀ fs : JsFields, (k, v) ∈ fieldsToList fs → sizeOf v < sizeOf fs := by
  intro fs
  induction fs using JsFields.inductOn with
  | hnil => intro h; simp [fieldsToList] at h
  | hcons k2 v2 rest ih =>
    intro hmem
    simp only [fieldsToList, List.mem_cons, Prod.mk.injEq] at hmem
    rcases hmem with ⟨_, hv⟩ | hmem
    · subst hv; simp; omega
    · have := ih hmem; simp; omega


theorem sizeOf_of_elem_mem {v : JsValue} :
    ∀ xs : JsElems, v ∈ elemsToList xs → sizeOf v < sizeOf xs := by
  intro xs
  induction xs using JsElems.inductOn with
  | hnil => intro h; simp [elemsToList] at h
  | hcons v2 rest ih =>
    intro hmem
    simp only [elemsToList, List.mem_cons] at hmem
    rcases hmem with hv | hmem
    · subst hv; simp; omega
    · have := ih hmem; simp; omega


theorem compareFields_of_pointwise (e : JsValue) :
    ∀ fs : JsFields,
      (∀ k v, (k, v) ∈ fieldsToList fs → jsCompare v (getPropStr e k) = true) →
      compareFields fs e = true := by
  intro fs
  induction fs using JsFields.inductOn with
  | hnil => intro _; simp [compareFields]
  | hcons k v rest ih =>
    intro h
    simp only [compareFields, Bool.and_eq_true]
    constructor
    · exact h k v (by simp [fieldsToList])
    · exact ih fun k2 v2 hm => h k2 v2 (by simp [fieldsToList, hm])

theorem elemsGet_of_drop {v : JsValue} {rest : JsElems} :
    ∀ (start : Nat) (full : JsElems), elemsDrop start full = .cons v rest →
      elemsGet full start = some v := by
  intro start
  induction start with
  | zero => intro full h; simp only [elemsDrop] at h; subst h; simp [elemsGet]
  | succ n ih =>
    intro full h
    cases full with
    | nil => simp [elemsDrop] at h
    | cons v2 rest2 => simp only [elemsDrop] at h; simpa [elemsGet] using ih rest2 h

theorem compareElems_of_drop (j : Nat) (full : JsElems) :
    ∀ (xs : JsElems) (start : Nat),
      (∀ v, v ∈ elemsToList xs → jsCompare v v = true) →
      elemsDrop start full = xs →
      compareElems start xs (.arr j full) = true := by
  intro xs
  induction xs using JsElems.inductOn with
  | hnil => intro _ _ _; simp [compareElems]
  | hcons v rest ih =>
    intro start h hdrop
    simp only [compareElems, Bool.and_eq_true]
    constructor
    · have hget : elemsGet full start = some v := elemsGet_of_drop start full hdrop
      have : getPropNat (.arr j full) start = v := by simp [getPropNat, hget]
      rw [this]
      exact h v (by simp [elemsToList])
    · have hdrop2 : elemsDrop (start + 1) full = rest := by
        clear ih h
        induction start generalizing full with
        | zero => cases full <;> simp_all [elemsDrop]
        | succ n ih2 =>
          cases full with
          | nil => simp [elemsDrop] at hdrop
          | cons v2 rest2 =>
            simp only [elemsDrop] at hdrop ⊢
            exact ih2 rest2 hdrop
      exact ih (start + 1) (fun v2 hm => h v2 (by simp [elemsToList, hm])) hdrop2

theorem jsCompare_refl_aux :
    ∀ (n : Nat) (v : JsValue), sizeOf v ≤ n → wfV v = true → jsCompare v v = true := by
  intro n
  induction n with
  | zero =>
    intro v hv
    cases v <;> simp_all
  | succ n ih =>
    intro v hsize hwf
    cases v with
    | str s => simp [jsCompare, typeofJs, isNaNNumber, jsStrictEq]
    | num m => cases m <;> simp [jsCompare, typeofJs, isNaNNumber, jsStrictEq]
    | bigintV i => simp [jsCompare, typeofJs, isNaNNumber, jsStrictEq]
    | boolean b => simp [jsCompare, typeofJs, isNaNNumber, jsStrictEq]
    | nullV => simp [jsCompare, typeofJs, isNaNNumber, jsTruthy, jsStrictEq]
    | undefV => simp [jsCompare, typeofJs, isNaNNumber, jsStrictEq]
    | sym i s => simp [jsCompare, typeofJs, isNaNNumber, symToStringOf]
    | func i => simp [jsCompare, typeofJs]
    | obj i fs =>
      have hfields : compareFields fs (.obj i fs) = true := by
        apply compareFields_of_pointwise
        intro k v hmem
        have hget : getField k fs = some v :=
          getField_of_wf k v fs (by simpa [wfV] using hwf) hmem
        have : getPropStr (.obj i fs) k = v := by simp [getPropStr, hget]
        rw [this]
        have hs : sizeOf v ≤ n := by
          have h1 := sizeOf_of_field_mem fs hmem
          have h2 : sizeOf fs < sizeOf (JsValue.obj i fs) := by
            have : sizeOf (JsValue.obj i fs) = 1 + sizeOf i + sizeOf fs := by simp
            omega
          omega
        exact ih v hs (wfV_of_field_mem fs (by simpa [wfV] using hwf) hmem)
      simp [jsCompare, typeofJs, isNaNNumber, jsTruthy, jsStrictEq, enumKeyCount, hfields]
    | arr i xs =>
      have helems : compareElems 0 xs (.arr i xs) = true := by
        apply compareElems_of_drop
        · intro v hmem
          have hs : sizeOf v ≤ n := by
            have h1 := sizeOf_of_elem_mem xs hmem
            have h2 : sizeOf xs < sizeOf (JsValue.arr i xs) := by
              have : sizeOf (JsValue.arr i xs) = 1 + sizeOf i + sizeOf xs := by simp
              omega
            omega
          exact ih v hs (wfV_of_elem_mem xs (by simpa [wfV] using hwf) hmem)
        · simp [elemsDrop]
      simp [jsCompare, typeofJs, isNaNNumber, jsTruthy, jsStrictEq, enumKeyCount, helems]

example : jsCompare (.num .nan) (.num .nan) = true := by decide
example : jsCompare (.func 0) (.func 1) = true := by decide
example : jsCompare (.str "x") (.num (.fin 1)) = false := by decide
example : jsCompare (.obj 0 (.cons "a" (.num (.fin 1)) (.cons "b" (.num (.fin 2)) .nil)))
    (.obj 1 (.cons "a" (.num (.fin 1)) .nil)) = false := by decide
example : jsCompare (.obj 0 (.cons "a" (.num (.fin 1)) .nil))
    (.obj 1 (.cons "a" (.num (.fin 1)) .nil)) = false := by decide
example : jsCompare (.obj 0 (.cons "a" (.num (.fin 1)) .nil))
    (.obj 0 (.cons "a" (.num (.fin 1)) .nil)) = true := by decide

/-! ## Spec-modelled external helpers (utils.ts is not under src/) -/

mutual
/-- Modelled from the spec: `serialize(value) -> text` from `utils.ts` (not
under src/): "canonical, deterministic text for string, number (including
NaN), boolean, null, undefined, symbol, function reference, ordered sequence,
or keyed record".  The exact text format is unspecified; this model prints a
simple canonical form.  No claim depends on the concrete text. -/
def serialize : JsValue → String
  | .str s => "\"" ++ s ++ "\""
  | .num .nan => "NaN"
  | .num (.fin v) => toString v
  | .bigintV i => toString i ++ "n"
  | .boolean b => cond b "true" "false"
  | .nullV => "null"
  | .undefV => "undefined"
  | .sym _ s => s
  | .func _ => "[Function]"
  | .obj _ fs => "Object (" ++ serializeFields fs ++ ")"
  | .arr _ xs => "Array [" ++ serializeElems xs ++ "]"

/-- Helper of the spec-modelled `serialize` for record fields. -/
def serializeFields : JsFields → String
  | .nil => ""
  | .cons k v rest => k ++ ": " ++ serialize v ++ ", " ++ serializeFields rest

/-- Helper of the spec-modelled `serialize` for array elements. -/
def serializeElems : JsElems → String
  | .nil => ""
  | .cons v rest => serialize v ++ ", " ++ serializeElems rest
end

/-- Modelled from the spec: `utils.addExtraLineBreaks` (not under src/)
surrounds multi-line snapshot text with extra line breaks ("values are
escaped multi-line text").  No claim depends on its concrete behaviour. -/
def addExtraLineBreaks (s : String) : String :=
  if s.data.contains '\n' then "\n" ++ s ++ "\n" else s

/-- Modelled from the spec: inverse direction of `addExtraLineBreaks`,
stripping the surrounding line breaks again for reporting. -/
def removeExtraLineBreaks (s : String) : String :=
  if s.data.head? = some '\n' ∧ s.data.getLast? = some '\n' ∧ 2 ≤ s.data.length
  then String.mk ((s.data.drop 1).dropLast) else s

/-- Modelled from the spec: `utils.testNameToKey` (not under src/); spec §6:
keys are opaque strings `"<test name> <1-based occurrence index>"`. -/
def testNameToKey (testName : String) (count : Nat) : String :=
  testName ++ " " ++ toString count

/-- Modelled from the spec: `utils.keyToTestName` (not under src/), the
inverse of `testNameToKey`: the key with its trailing occurrence index
removed. -/
def keyToTestName (key : String) : String :=
  String.intercalate " " (key.splitOn " ").dropLast

/-- Modelled from the spec: `utils.escapeBacktickString` (not under src/);
spec §4.4: "literal content is escaped so that terminator characters inside
the value cannot prematurely close the generated literal".  Backslashes and
backticks are prefixed with a backslash. -/
def escapeBacktickString (s : String) : String :=
  String.mk (s.data.flatMap fun c =>
    if c = '\\' ∨ c = Char.ofNat 96 then ['\\', c] else [c])

/-! ## The SnapshotState data model (State.ts) -/

/-- `Config.SnapshotUpdateState`: the run-wide update policy. -/
inductive UpdateMode where
  | all
  | new
  | none
deriving DecidableEq, Repr

/-- A resolved stack frame (`jest-message-util`): file, line, column. -/
structure Frame where
  file : String
  line : Int
  column : Int
deriving DecidableEq, Repr

/-- An entry of `SnapshotState._inlineSnapshots` as pushed by `_addSnapshot`
(State.ts lines 125-129): `{frame, serialized, snapshot: received}`.  The
`snapshot` field holds the `SnapshotValue` that was passed in (a string in
serialized mode, the raw value otherwise). -/
structure InlineEntry where
  frame : Frame
  serialized : Bool
  snapshot : JsValue
deriving DecidableEq, Repr

/-- The `SnapshotState` class fields (State.ts lines 59-98).  The snapshot
mapping and the counters are association lists with JS-object/Map update
semantics (`setA`); `_uncheckedKeys` is the key set; `_snapshotPath` is not
stored — whether the companion file exists on disk is passed to `match` and
`save` as the `fileExists` argument. -/
structure SnapshotState where
  counters : List (String × Nat)
  dirty : Bool
  index : Nat
  updateSnapshot : UpdateMode
  snapshotData : List (String × JsValue)
  initialData : List (String × JsValue)
  inlineSnapshots : List InlineEntry
  uncheckedKeys : List String
  expand : Bool
  added : Nat
  matched : Nat
  unmatched : Nat
  updated : Nat
deriving DecidableEq, Repr

/-- Association-list lookup, the read of a JS `Map`/object keyed by string. -/
def lookupA {α : Type} (k : String) : List (String × α) → Option α
  | [] => Option.none
  | (k2, v) :: rest => if k2 = k then some v else lookupA k rest

/-- Association-list write with JS semantics: an existing key is updated in
place (insertion order kept), a new key is appended. -/
def setA {α : Type} (k : String) (v : α) : List (String × α) → List (String × α)
  | [] => [(k, v)]
  | (k2, v2) :: rest => if k2 = k then (k2, v) :: rest else (k2, v2) :: setA k v rest

/-- JS `delete obj[key]`. -/
def deleteA {α : Type} (k : String) (l : List (String × α)) : List (String × α) :=
  l.filter (fun p => p.1 ≠ k)

/-- The `SnapshotState` constructor (State.ts lines 78-98).  `data` and
`dirty` stand for the result of `getSnapshotData(snapshotPath, update)`
(utils.ts, not under src/, modelled from the spec: "load(path) -> (mapping,
dirty): returns an empty mapping if the file is absent"). -/
def initialState (data : List (String × JsValue)) (dirty : Bool)
    (updateSnapshot : UpdateMode) (expand : Bool) : SnapshotState :=
  { counters := []
    dirty := dirty
    index := 0
    updateSnapshot := updateSnapshot
    snapshotData := data
    initialData := data
    inlineSnapshots := []
    uncheckedKeys := data.map Prod.fst
    expand := expand
    added := 0
    matched := 0
    unmatched := 0
    updated := 0 }

/-- `SnapshotState.clear` (State.ts lines 135-144). -/
def clearOp (s : SnapshotState) : SnapshotState :=
  { s with
    snapshotData := s.initialData
    inlineSnapshots := []
    counters := []
    index := 0
    added := 0
    matched := 0
    unmatched := 0
    updated := 0 }

/-- `SnapshotState.markSnapshotsAsCheckedForTest` (State.ts lines 100-106). -/
def markSnapshotsAsCheckedForTest (s : SnapshotState) (testName : String) :
    SnapshotState :=
  { s with uncheckedKeys := s.uncheckedKeys.filter (fun u => keyToTestName u ≠ testName) }

/-- `SnapshotState.removeUncheckedKeys` (State.ts lines 182-188). -/
def removeUncheckedKeysOp (s : SnapshotState) : SnapshotState :=
  if s.updateSnapshot = UpdateMode.all ∧ s.uncheckedKeys.length ≠ 0 then
    { s with
      dirty := true
      snapshotData := s.uncheckedKeys.foldl (fun d k => deleteA k d) s.snapshotData
      uncheckedKeys := [] }
  else s

/-- `SnapshotState._addSnapshot` (State.ts lines 108-133).  `stackFrame`
models `getTopFrame(getStackTraceLines(...error.stack))`: `Option.none` means
the frame could not be inferred, which in the source throws; the `Except`
error aborts the run (the `_dirty = true` mutation that precedes the throw is
discarded together with the run). -/
def addSnapshotOp (s : SnapshotState) (key : String) (received : JsValue)
    (serialized isInline : Bool) (stackFrame : Option Frame) :
    Except String SnapshotState :=
  let s1 := { s with dirty := true }
  if isInline then
    match stackFrame with
    | Option.none => .error "Jest: Couldn\x27t infer stack frame for inline snapshot."
    | some frame =>
      .ok { s1 with
              inlineSnapshots := s1.inlineSnapshots ++
                [{ frame := frame, serialized := serialized, snapshot := received }] }
  else
    .ok { s1 with snapshotData := setA key received s1.snapshotData }

/-- The argument object of `SnapshotState.match` (State.ts lines 32-41).
`stackFrame` models the frame resolved from the `error` option (see
`addSnapshotOp`); `Option.none` for `key` and `inlineSnapshot` is JS
`undefined`. -/
structure SnapshotMatchOptions where
  testName : String
  received : JsValue
  key : Option String
  serialized : Bool
  inlineSnapshot : Option String
  isInline : Bool
  hasInlineSnapshot : Bool
  stackFrame : Option Frame
deriving DecidableEq, Repr

/-- The result object of `SnapshotState.match` (State.ts lines 43-52). -/
structure SnapshotReturnOptions where
  actual : JsValue
  actualSerialized : String
  count : Nat
  expected : JsValue
  expectedSerialized : String
  hasSnapshot : Bool
  key : String
  pass : Bool
deriving DecidableEq, Repr

/-- The string content of a `SnapshotValue` cast `as string` (used by the
source only where the value is in fact a string). -/
def strOf : JsValue → String
  | .str s => s
  | _ => ""

/-- The write-vs-report decision of `SnapshotState.match` (State.ts lines
313-391), factored out of `matchOp` with the values `match` computed up to
line 311 passed in: `s1` is the state after the counter bump, the
unchecked-key removal and the line-310 store; `writeResult` is the result
object of the write/matched branches (lines 349-358 = 380-390), and
`mismatchResult` the one of the unmatched branch (lines 362-377). -/
def matchDecision (s1 : SnapshotState) (mode : UpdateMode)
    (pass hasSnapshot persisted : Bool) (key : String) (value : JsValue)
    (serialized isInline : Bool) (stackFrame : Option Frame)
    (writeResult mismatchResult : SnapshotReturnOptions) :
    Except String (SnapshotState × SnapshotReturnOptions) :=
  if (hasSnapshot = true ∧ mode = UpdateMode.all) ∨
     ((hasSnapshot = false ∨ persisted = false) ∧
       (mode = UpdateMode.new ∨ mode = UpdateMode.all)) then
    if mode = UpdateMode.all then
      if pass = false then
        if hasSnapshot = true then
          match addSnapshotOp { s1 with updated := s1.updated + 1 } key value
              serialized isInline stackFrame with
          | .error e => .error e
          | .ok s2 => .ok (s2, writeResult)
        else
          match addSnapshotOp { s1 with added := s1.added + 1 } key value
              serialized isInline stackFrame with
          | .error e => .error e
          | .ok s2 => .ok (s2, writeResult)
      else
        .ok ({ s1 with matched := s1.matched + 1 }, writeResult)
    else
      -- update mode is 'new' here: `_addSnapshot` then `added++`
      match addSnapshotOp s1 key value serialized isInline stackFrame with
      | .error e => .error e
      | .ok s2 => .ok ({ s2 with added := s2.added + 1 }, writeResult)
  else
    if pass = false then
      .ok ({ s1 with unmatched := s1.unmatched + 1 }, mismatchResult)
    else
      .ok ({ s1 with matched := s1.matched + 1 }, writeResult)

/-- `SnapshotState.match` (State.ts lines 257-392), one assertion of the
matcher/state machine.  `fileExists` models `fs.existsSync(this._snapshotPath)`.
Steps in source order: bump the per-test counter; derive the key (JS `!key`
is also true for the empty string); drop the key from the unchecked set
unless it is an inline match shadowed by a still-defined external entry;
compute `value`, `expected`, `pass`, `hasSnapshot`, `snapshotIsPersisted`;
store the fresh value on a passing non-inline match (line 310, unconditional
on the update mode); then the write-vs-report decision of lines 320-391. -/
def matchOp (s : SnapshotState) (fileExists : Bool) (o : SnapshotMatchOptions) :
    Except String (SnapshotState × SnapshotReturnOptions) :=
  let counters := setA o.testName ((lookupA o.testName s.counters).getD 0 + 1) s.counters
  let count := (lookupA o.testName counters).getD 0
  let key :=
    match o.key with
    | some k => if k = "" then testNameToKey o.testName count else k
    | Option.none => testNameToKey o.testName count
  -- `!(isInline && this._snapshotData[key] !== undefined)`
  let keyDefined :=
    match lookupA key s.snapshotData with
    | some v => v ≠ JsValue.undefV
    | Option.none => false
  let uncheckedKeys :=
    if ¬ (o.isInline = true ∧ keyDefined = true) then
      s.uncheckedKeys.filter (fun u => u ≠ key)
    else s.uncheckedKeys
  let valueText := addExtraLineBreaks (serialize o.received)
  let value := if o.serialized then JsValue.str valueText else o.received
  -- `valueSerialized` is `value as string` when serialized, else the same text
  let valueSerialized := valueText
  let expected :=
    if o.isInline then
      match o.inlineSnapshot with
      | some t => JsValue.str t
      | Option.none => JsValue.undefV
    else (lookupA key s.snapshotData).getD .undefV
  let expectedSerialized := addExtraLineBreaks (serialize expected)
  let pass := if o.serialized then jsStrictEq expected value else jsCompare o.received expected
  let hasSnapshot :=
    if o.isInline then o.hasInlineSnapshot else (lookupA key s.snapshotData).isSome
  let snapshotIsPersisted := o.isInline || fileExists
  let defaultExpected :=
    if o.serialized then JsValue.str "" else if hasSnapshot then expected else .undefV
  let defaultActual :=
    if o.serialized then JsValue.str "" else if hasSnapshot then o.received else .undefV
  -- line 310: a passing non-inline match stores the freshly generated value
  let snapshotData1 :=
    if pass && !o.isInline then setA key value s.snapshotData else s.snapshotData
  let s1 := { s with
                counters := counters
                uncheckedKeys := uncheckedKeys
                snapshotData := snapshotData1 }
  let writeResult : SnapshotReturnOptions :=
    { actual := defaultActual
      actualSerialized := ""
      count := count
      expected := defaultExpected
      expectedSerialized := ""
      hasSnapshot := hasSnapshot
      key := key
      pass := true }
  let mismatchResult : SnapshotReturnOptions :=
    { actual := if o.serialized then JsValue.str (removeExtraLineBreaks valueText) else o.received
      actualSerialized := removeExtraLineBreaks valueSerialized
      count := count
      expected :=
        if hasSnapshot then
          if o.serialized then JsValue.str (removeExtraLineBreaks (strOf expected))
          else expected
        else .undefV
      expectedSerialized := expectedSerialized
      hasSnapshot := hasSnapshot
      key := key
      pass := false }
  matchDecision s1 s.updateSnapshot pass hasSnapshot snapshotIsPersisted key value
    o.serialized o.isInline o.stackFrame writeResult mismatchResult

/-- `SnapshotState.fail` (State.ts lines 394-405). -/
def failOp (s : SnapshotState) (testName : String) (_received : JsValue)
    (keyOpt : Option String) : SnapshotState × String :=
  let counters := setA testName ((lookupA testName s.counters).getD 0 + 1) s.counters
  let count := (lookupA testName counters).getD 0
  let key :=
    match keyOpt with
    | some k => if k = "" then testNameToKey testName count else k
    | Option.none => testNameToKey testName count
  ({ s with
       counters := counters
       uncheckedKeys := s.uncheckedKeys.filter (fun u => u ≠ key)
       unmatched := s.unmatched + 1 }, key)

/-- The `SaveStatus` result of `save` (State.ts lines 54-57). -/
structure SaveStatus where
  deleted : Bool
  saved : Bool
deriving DecidableEq, Repr

/-- The file-system writes `save` performs: `saveSnapshotFile(...)` on the
companion file, `saveInlineSnapshots(...)` (handing the queue to the
patcher), and `fs.unlinkSync` of the companion file. -/
structure SaveEffects where
  wroteSnapshotFile : Bool
  ranInlinePatcher : Bool
  unlinkedSnapshotFile : Bool
deriving DecidableEq, Repr

/-- `SnapshotState.save` (State.ts lines 146-172).  `fileExists` models
`fs.existsSync(this._snapshotPath)`.  `save` reads but never assigns any
field of the state, so only the status and the performed writes are
returned. -/
def saveOp (s : SnapshotState) (fileExists : Bool) : SaveStatus × SaveEffects :=
  let hasExternalSnapshots := s.snapshotData.length
  let hasInlineSnapshots := s.inlineSnapshots.length
  let isEmpty := hasExternalSnapshots = 0 ∧ hasInlineSnapshots = 0
  if (s.dirty = true ∨ s.uncheckedKeys.length ≠ 0) ∧ ¬ isEmpty then
    ({ deleted := false, saved := true },
     { wroteSnapshotFile := hasExternalSnapshots ≠ 0
       ranInlinePatcher := hasInlineSnapshots ≠ 0
       unlinkedSnapshotFile := false })
  else if hasExternalSnapshots = 0 ∧ fileExists = true then
    -- `status.deleted = true` is set whether or not the unlink ran
    ({ deleted := true, saved := false },
     { wroteSnapshotFile := false
       ranInlinePatcher := false
       unlinkedSnapshotFile := s.updateSnapshot = UpdateMode.all })
  else
    ({ deleted := false, saved := false },
     { wroteSnapshotFile := false
       ranInlinePatcher := false
       unlinkedSnapshotFile := false })

/-! ## The inline-snapshot patcher (inline_snapshots.ts) -/

/-- An argument node of a call expression, as far as the patcher inspects it:
either a template literal (with the raw text of its single quasi) or any
other expression. -/
inductive ArgNode where
  | templateArg (raw : String)
  | otherArg (text : String)
deriving DecidableEq, Repr

/-- A call-expression node after the traversal replaced or appended its
snapshot argument; `nodeStart`/`nodeEnd` are the `node.start`/`node.end`
offsets into the source text used by the splice (always numbers in this
model — the parser assigns them). -/
structure PatchedNode where
  nodeStart : Nat
  nodeEnd : Nat
  args : List ArgNode
deriving DecidableEq, Repr

/-- `InlineSnapshot` (inline_snapshots.ts lines 21-25): the snapshot text, a
source frame, and the node reference bound during traversal. -/
structure InlineSnapshot where
  snapshot : String
  frame : Frame
  node : Option PatchedNode := Option.none
deriving DecidableEq, Repr

/-- A `CallExpression` node in the order `babelTraverse` visits it:
`calleeOk` states that the callee is a `MemberExpression` whose property is
an `Identifier`; `propLine`/`propColumn` are `callee.property.loc.start`. -/
structure CallNode where
  calleeOk : Bool
  propLine : Int
  propColumn : Int
  args : List ArgNode
  nodeStart : Nat
  nodeEnd : Nat
deriving DecidableEq, Repr

/-- The template-string key `` `${line}:${column}` `` used both by
`groupSnapshotsByFrame` and by the traversal lookup. -/
def mkLineColKey (line column : Int) : String :=
  toString line ++ ":" ++ toString column

/-- The grouping key of a pending record (`groupSnapshotsByFrame`,
inline_snapshots.ts lines 108-112): `` `${line}:${column - 1}` `` (frame
columns are 1-based, babel columns 0-based; `line` and `column` of a resolved
frame are always numbers, so the `''` fallback key does not arise). -/
def frameKey (r : InlineSnapshot) : String :=
  mkLineColKey r.frame.line (r.frame.column - 1)

/-- The lookup key of a visited call node: `` `${line}:${column}` `` of
`callee.property.loc.start`. -/
def nodeKey (n : CallNode) : String :=
  mkLineColKey n.propLine n.propColumn

/-- Helper of `groupIdx`: indices (counting from `base`) of the records whose
frame key equals `key`, in array order. -/
def groupIdxFrom (base : Nat) (key : String) : List InlineSnapshot → List Nat
  | [] => []
  | r :: rest =>
    if frameKey r = key then base :: groupIdxFrom (base + 1) key rest
    else groupIdxFrom (base + 1) key rest

/-- `groupedSnapshots[key]` as the list of indices into the original snapshot
array, in order (`groupSnapshotsBy` concatenates in traversal order of the
array, so a group lists its records in array order). -/
def groupIdx (snapshots : List InlineSnapshot) (key : String) : List Nat :=
  groupIdxFrom 0 key snapshots

/-- The argument surgery of the `CallExpression` visitor (inline_snapshots.ts
lines 204-223): build a template literal from the escaped snapshot text,
replace the first `TemplateLiteral` argument with it, or push it when none
exists. -/
def patchNode (n : CallNode) (text : String) : PatchedNode :=
  let replacementNode := ArgNode.templateArg (escapeBacktickString text)
  let snapshotIndex := n.args.findIdx? (fun a =>
    match a with
    | .templateArg _ => true
    | .otherArg _ => false)
  { nodeStart := n.nodeStart
    nodeEnd := n.nodeEnd
    args :=
      match snapshotIndex with
      | some i => n.args.set i replacementNode
      | Option.none => n.args ++ [replacementNode] }

/-- `inlineSnapshot.node = node`: bind record `i` to the patched node. -/
def bindRecord (recs : List InlineSnapshot) (i : Nat) (p : PatchedNode) :
    List InlineSnapshot :=
  match recs.get? i with
  | some r => recs.set i { r with node := some p }
  | Option.none => recs

/-- The `CallExpression` visitor of `traverseAst` (inline_snapshots.ts lines
185-225) run over the call nodes in traversal order.  `orig` is the snapshot
array the groups were computed from (grouping happens once, before the
traversal); `recs` carries the node bindings; `remaining` is
`remainingSnapshots`, the set of snapshot TEXTS not yet bound (deleting a
text removes every occurrence, as a JS `Set` holds one).  A group with more
than one record throws the multiple-inline-snapshots error before anything
is written. -/
def visitNodes (orig : List InlineSnapshot) :
    List CallNode → List InlineSnapshot → List String →
      Except String (List InlineSnapshot × List String)
  | [], recs, remaining => .ok (recs, remaining)
  | n :: rest, recs, remaining =>
    if n.calleeOk = false then visitNodes orig rest recs remaining
    else
      match groupIdx orig (nodeKey n) with
      | [] => visitNodes orig rest recs remaining
      | [i] =>
        let text := ((orig.get? i).map InlineSnapshot.snapshot).getD ""
        visitNodes orig rest (bindRecord recs i (patchNode n text))
          (remaining.filter (fun t => t ≠ text))
      | _ :: _ :: _ =>
        .error "Jest: Multiple inline snapshots for the same call are not supported."

/-- `traverseAst` (inline_snapshots.ts lines 171-230): group the pending
records by frame, visit every call expression, and afterwards fail if any
snapshot text is still unbound. -/
def traverseAst (snapshots : List InlineSnapshot) (ast : List CallNode) :
    Except String (List InlineSnapshot) :=
  match visitNodes snapshots ast snapshots (snapshots.map InlineSnapshot.snapshot) with
  | .error e => .error e
  | .ok (recs, remaining) =>
    if remaining.length ≠ 0 then .error "Jest: Couldn\x27t locate all inline snapshots."
    else .ok recs

/-- One step of the `reduceRight` splice (inline_snapshots.ts lines 72-85):
a record with no bound node (or no numeric span — spans are always numbers in
this model) is fatal; otherwise the node's span of the source text is
replaced by the generated code.  `gen` stands for the external
`generate(node).code` printer of `@babel/generator`. -/
def spliceOne (gen : PatchedNode → String) (sourceSoFar : String)
    (rec : InlineSnapshot) : Except String String :=
  match rec.node with
  | Option.none => .error "Jest: no snapshot insert location found"
  | some p =>
    .ok (String.mk ((sourceSoFar.data.take p.nodeStart)
      ++ (gen p).data ++ (sourceSoFar.data.drop p.nodeEnd)))

/-- `snapshots.reduceRight(...)`: substitute in reverse order, so slice
offsets of earlier nodes stay valid. -/
def spliceAll (gen : PatchedNode → String) :
    List InlineSnapshot → String → Except String String
  | [], sourceFile => .ok sourceFile
  | r :: rest, sourceFile =>
    match spliceAll gen rest sourceFile with
    | .error e => .error e
    | .ok sourceSoFar => spliceOne gen sourceSoFar r

/-- The outcome of `saveSnapshotsForFile` for one source file: the new text
and whether `fs.writeFileSync` ran (only when the text changed). -/
structure FileSaveOutcome where
  newSourceFile : String
  wroteFile : Bool
deriving DecidableEq, Repr

/-- `saveSnapshotsForFile` (inline_snapshots.ts lines 45-95) for one file of
a batch: read the source (`sourceFile`), parse it (`ast` stands for the call
expressions of the parse result, in traversal order), run `traverseAst`,
splice all bound nodes in reverse order, and write the file only if the
result differs.  An `Except.error` is a thrown exception: it aborts before
`fs.writeFileSync`, so no write happens on any error path. -/
def saveSnapshotsForFile (gen : PatchedNode → String)
    (snapshots : List InlineSnapshot) (sourceFile : String)
    (ast : List CallNode) : Except String FileSaveOutcome :=
  match traverseAst snapshots ast with
  | .error e => .error e
  | .ok recs =>
    match spliceAll gen recs sourceFile with
    | .error e => .error e
    | .ok newSourceFile =>
      .ok { newSourceFile := newSourceFile, wroteFile := newSourceFile ≠ sourceFile }

/-! ## The snapshot literal generator (src/unnamed/part_000) -/

mutual
/-- The `GeneratedAst` union of the generator file, over `@babel/types`
builders.  `identifierOfExecResult` records the call `t.identifier(name)`
where `name` is the whole `RegExpExecArray` returned by `exec` — a non-string
argument — exactly as `getSymbolAstFromStandardSymbol` performs it; it is a
distinct node from `identifier` applied to a string.  `templateLiteralAst`
is the single-quasi template literal `generateSnapshot` builds in serialized
mode. -/
inductive BabelAst where
  | stringLiteral (s : String)
  | numericLiteral (n : JsNum)
  | bigIntLiteral (s : String)
  | booleanLiteral (b : Bool)
  | nullLiteral
  | identifier (name : String)
  | identifierOfExecResult (execResult : List String)
  | callExpression (callee : BabelAst) (args : BabelAstList)
  | memberExpression (objectPart : BabelAst) (propertyPart : BabelAst)
  | arrayExpression (elems : BabelAstList)
  | objectExpression (props : BabelPropList)
  | templateLiteralAst (raw : String)
deriving DecidableEq, Repr

/-- Argument/element list of generated nodes. -/
inductive BabelAstList where
  | nil
  | cons (head : BabelAst) (tail : BabelAstList)
deriving DecidableEq, Repr

/-- `ObjectProperty` list: `t.objectProperty(t.identifier(key), value)`. -/
inductive BabelPropList where
  | nil
  | cons (key : String) (value : BabelAst) (rest : BabelPropList)
deriving DecidableEq, Repr
end

/-- `.` of the regular expression: any character except a line break. -/
def dotMatches (c : Char) : Bool := c ≠ '\n'

/-- The literal prefix of `/Symbol\(Symbol\.(.+)\)/`. -/
def wkPrefix : List Char := "Symbol(Symbol.".data

/-- Greedy match of `(.+)\)` against `cs`: the longest `k ≥ 1` such that the
first `k` characters are all `.`-matchable and the next character is `)`. -/
def bestCaptureLen (cs : List Char) : Option Nat :=
  ((List.range cs.length).filter (fun k =>
    1 ≤ k ∧ cs.get? k = some ')' ∧ (cs.take k).all dotMatches)).getLast?

/-- `/Symbol\(Symbol\.(.+)\)/.exec(s)`: leftmost match position, greedy
capture; the result models the `RegExpExecArray` `[full match, capture]`
(`null` is `Option.none`). -/
def execFrom : List Char → Option (List String)
  | [] => Option.none
  | c :: rest =>
    if (c :: rest).take wkPrefix.length = wkPrefix then
      match bestCaptureLen ((c :: rest).drop wkPrefix.length) with
      | some k =>
        let cap := ((c :: rest).drop wkPrefix.length).take k
        some [String.mk (wkPrefix ++ cap ++ [')']), String.mk cap]
      | Option.none => execFrom rest
    else execFrom rest

/-- `exec` of the well-known-symbol pattern on `symbol.toString()`. -/
def execWellKnown (s : String) : Option (List String) :=
  execFrom s.data

/-- `getSymbolAstFromStandardSymbol` (part_000 lines 29-39): when the
symbol's string form matches the well-known pattern, build
`t.memberExpression(t.identifier('Symbol'), t.identifier(name))` — where
`name` is the whole exec result array, not its capture group `name[1]`;
otherwise `undefined`. -/
def getSymbolAstFromStandardSymbol (symbolToString : String) : Option BabelAst :=
  match execWellKnown symbolToString with
  | Option.none => Option.none
  | some name =>
    some (.memberExpression (.identifier "Symbol") (.identifierOfExecResult name))

mutual
/-- `generateAstFromValue` (part_000 lines 41-87), branches in source order:
undefined, null, string, number, bigint, boolean, function (the
`expect.any(Function)` call), `Array.isArray`, iterables (unreachable for
`SnapshotValue`s: strings were already handled and no other modelled value
carries `Symbol.iterator`), symbol (well-known reference or
`t.stringLiteral(value.toString())`), and finally records via their
enumerable keys. -/
def generateAstFromValue : JsValue → BabelAst
  | .undefV => .identifier "undefined"
  | .nullV => .nullLiteral
  | .str s => .stringLiteral s
  | .num n => .numericLiteral n
  | .bigintV i => .bigIntLiteral (toString i)
  | .boolean b => .booleanLiteral b
  | .func _ =>
    .callExpression (.memberExpression (.identifier "expect") (.identifier "any"))
      (.cons (.identifier "Function") .nil)
  | .arr _ xs => .arrayExpression (generateElems xs)
  | .sym _ s =>
    match getSymbolAstFromStandardSymbol s with
    | some referencedSymbol => referencedSymbol
    | Option.none => .stringLiteral s
  | .obj _ fs => .objectExpression (generateProps fs)

/-- `value.map(generateAstFromValue)` over array elements. -/
def generateElems : JsElems → BabelAstList
  | .nil => .nil
  | .cons v rest => .cons (generateAstFromValue v) (generateElems rest)

/-- The `for (const key in obj)` property loop of the record branch. -/
def generateProps : JsFields → BabelPropList
  | .nil => .nil
  | .cons k v rest => .cons k (generateAstFromValue v) (generateProps rest)
end

/-- `generateSnapshot` (part_000 lines 89-101): serialized mode builds a
single-quasi template literal from the escaped text, non-serialized mode
delegates to `generateAstFromValue`. -/
def generateSnapshot (value : JsValue) (serialized : Bool) : BabelAst :=
  if serialized then .templateLiteralAst (escapeBacktickString (strOf value))
  else generateAstFromValue value

/-! ## Claims -/

deriving instance DecidableEq for Except

/-- Claim C1.  The claim states that for two record/sequence values,
`compare(r, e)` is true IF AND ONly IF every enumerable key of `r`
recursively compares equal against `e` and both key counts agree, with no
further condition such as reference identity.  The code contradicts this:
its object branch never returns true on success but falls through to the
final `return received === expected`, so the two structurally equal records
below — distinct allocations `obj 0` and `obj 1` of `{a: 1}` — satisfy the
claimed condition (`compareFields` is true and the key counts agree) yet
`compare` returns false.  The spec (§4.3) states the claimed equivalence, and
with the fall-through the recursive comparison can never establish equality
that `===` would not, so the code's missing `return true` is a slip
(code_bug). -/
theorem compare_requires_reference_identity_on_records :
    compareFields (.cons "a" (.num (.fin 1)) .nil)
      (JsValue.obj 1 (.cons "a" (.num (.fin 1)) .nil)) = true
    ∧ enumKeyCount (JsValue.obj 0 (.cons "a" (.num (.fin 1)) .nil))
      = enumKeyCount (JsValue.obj 1 (.cons "a" (.num (.fin 1)) .nil))
    ∧ jsCompare (JsValue.obj 0 (.cons "a" (.num (.fin 1)) .nil))
      (JsValue.obj 1 (.cons "a" (.num (.fin 1)) .nil)) = false := by decide

/-- Claim C7: reflexivity of the comparator.  For every well-formed
`SnapshotValue` `v` (record keys pairwise distinct, as in any JS runtime
value; self-referential records cannot be formed in this inductive model, so
they are excluded by construction), `compare(v, v)` is true — including NaN,
functions, symbols, records and sequences. -/
theorem compare_refl (v : JsValue) (h : wfV v = true) : jsCompare v v = true :=
  jsCompare_refl_aux (sizeOf v) v (Nat.le_refl _) h

/-- A value exercising every kind the claim names: NaN, a function, a symbol,
a nested sequence, nested records. -/
def reflWitnessValue : JsValue :=
  .obj 0 (.cons "nanField" (.num .nan)
    (.cons "fn" (.func 3)
      (.cons "symField" (.sym 1 "Symbol(s)")
        (.cons "seq" (.arr 2 (.cons (.str "a") (.cons .nullV (.cons (.num (.fin 7)) .nil))))
          (.cons "inner" (.obj 4 (.cons "b" .undefV .nil)) .nil)))))

/-- Witness for C7 at a concrete value covering the kinds the claim lists. -/
theorem compare_refl_witness :
    wfV reflWitnessValue = true ∧ jsCompare reflWitnessValue reflWitnessValue = true :=
  ⟨by decide, compare_refl reflWitnessValue (by decide)⟩

/-- Claim C9.  The claim says a well-known symbol (string form
`Symbol(Symbol.x)`) becomes the namespaced reference literal `Symbol.x`.  The
code computes the exec result `["Symbol(Symbol.x)", "x"]` but then passes
that whole array — not the captured name `name[1]` — to `t.identifier`, so
the generated member expression's property is not the identifier `x` (a
non-string argument, which `@babel/types` rejects at runtime; it does not
even type-check in TS).  The spec is clearly the intent and the `name` vs
`name[1]` slip a bug (code_bug).  Third conjunct: a non-well-known symbol
becomes a string literal of its full string form `Symbol(description)` — the
`toString()` text, not the bare description. -/
theorem well_known_symbol_exec_array_bug :
    generateAstFromValue (JsValue.sym 0 "Symbol(Symbol.iterator)")
      = BabelAst.memberExpression (.identifier "Symbol")
          (.identifierOfExecResult ["Symbol(Symbol.iterator)", "iterator"])
    ∧ generateAstFromValue (JsValue.sym 0 "Symbol(Symbol.iterator)")
      ≠ BabelAst.memberExpression (.identifier "Symbol") (.identifier "iterator")
    ∧ generateAstFromValue (JsValue.sym 1 "Symbol(mine)")
      = BabelAst.stringLiteral "Symbol(mine)" := by decide

/-- The companion-file existence after one `save`: deleted ⇒ gone, written ⇒
present, otherwise unchanged. -/
def nextFileExists (fe : Bool) (e : SaveEffects) : Bool :=
  if e.unlinkedSnapshotFile then false else if e.wroteSnapshotFile then true else fe

/-- Claim C4 (amended).  `save` assigns no field of the state (its Lean model
is a pure function of the state), so a second `save()` with no intervening
`match()` repeats the first one's decision: it writes the companion file
again exactly when the first call wrote it (the dirty flag was not cleared),
re-runs the inline patcher exactly when the first call ran it, and never
unlinks a file (the deletion branch cannot repeat once the file is gone, and
under `'new'`/`'none'` it never unlinks at all).  The original claim — that
the second `save()` performs NO write — is refuted by
`save_not_idempotent_counterexample`. -/
theorem save_second_call_repeats_effects (s : SnapshotState) (fe : Bool) :
    (saveOp s (nextFileExists fe (saveOp s fe).2)).2.wroteSnapshotFile
      = (saveOp s fe).2.wroteSnapshotFile
    ∧ (saveOp s (nextFileExists fe (saveOp s fe).2)).2.ranInlinePatcher
      = (saveOp s fe).2.ranInlinePatcher
    ∧ (saveOp s (nextFileExists fe (saveOp s fe).2)).2.unlinkedSnapshotFile = false := by
  by_cases hd : s.snapshotData.length = 0 <;>
    by_cases hi : s.inlineSnapshots.length = 0 <;>
      by_cases hu : s.dirty = true ∨ s.uncheckedKeys.length ≠ 0 <;>
        by_cases hf : fe = true <;>
          by_cases ha : s.updateSnapshot = UpdateMode.all <;>
            simp_all [saveOp, nextFileExists]

/-- A dirty state with one external snapshot. -/
def c4s : SnapshotState := initialState [("a 1", JsValue.str "x")] true UpdateMode.new false

/-- Counterexample for C4 as stated: after one `save()` (which writes the
companion file), a second `save()` with no intervening `match()` writes the
companion file again — the dirty flag is never cleared — contradicting
"performs no write". -/
theorem save_not_idempotent_counterexample :
    (saveOp c4s true).2.wroteSnapshotFile = true
    ∧ (saveOp c4s (nextFileExists true (saveOp c4s true).2)).2.wroteSnapshotFile = true := by
  decide

/-- Claim C6 (amended).  When `save()` finds the in-memory mapping empty, a
companion file exists, and the write branch is not taken (which, with an
empty mapping, means the inline queue is empty or the state is clean with no
unchecked keys), it unlinks the file only under `'all'` — under `'new'` and
`'none'` the stale file is left untouched — but it returns `deleted = true`
under every policy, because `status.deleted = true` is set outside the
policy check.  The original claim's "deleted is not reported for a file that
was not removed" is refuted by
`deleted_reported_without_unlink_counterexample`. -/
theorem empty_mapping_delete_branch_behavior (s : SnapshotState)
    (hdata : s.snapshotData = [])
    (hbranch : s.inlineSnapshots = [] ∨ (s.dirty = false ∧ s.uncheckedKeys = [])) :
    (saveOp s true).1.deleted = true
    ∧ ((saveOp s true).2.unlinkedSnapshotFile = true ↔ s.updateSnapshot = UpdateMode.all)
    ∧ (saveOp s true).2.wroteSnapshotFile = false
    ∧ (saveOp s true).1.saved = false := by
  unfold saveOp
  rcases hbranch with hinl | ⟨hdirty, hunch⟩ <;>
    simp_all

/-- A clean run under `'none'` whose companion file is stale. -/
def c6s : SnapshotState := initialState [] false UpdateMode.none false

/-- Witness for C6 (amended) at a concrete state under `'none'`. -/
theorem empty_mapping_delete_branch_behavior_witness :
    (saveOp c6s true).1.deleted = true
    ∧ (saveOp c6s true).2.unlinkedSnapshotFile = false := by
  have h := empty_mapping_delete_branch_behavior c6s rfl (Or.inl rfl)
  refine ⟨h.1, ?_⟩
  cases hb : (saveOp c6s true).2.unlinkedSnapshotFile
  · rfl
  · have := h.2.1.mp hb
    simp [c6s, initialState] at this

/-- Counterexample for C6 as stated: under policy `'none'`, with an empty
mapping and an existing companion file, `save()` reports `deleted = true`
although it did not unlink the file. -/
theorem deleted_reported_without_unlink_counterexample :
    saveOp (initialState [] false UpdateMode.none false) true
      = ({ deleted := true, saved := false },
         { wroteSnapshotFile := false, ranInlinePatcher := false,
           unlinkedSnapshotFile := false }) := by decide

/-- Lookup after a JS object/Map write of the same key. -/
theorem lookupA_setA_self {α : Type} (k : String) (v : α) :
    ∀ l : List (String × α), lookupA k (setA k v l) = some v := by
  intro l
  induction l with
  | nil => simp [setA, lookupA]
  | cons p rest ih =>
    obtain ⟨k2, v2⟩ := p
    by_cases hk : k2 = k
    · subst hk; simp [setA, lookupA]
    · simp [setA, lookupA, hk, ih]

/-- `_addSnapshot` touches only `dirty`, the mapping and the inline queue:
every counter, the per-test counters and the unchecked keys are unchanged. -/
theorem addSnapshotOp_counters {s : SnapshotState} {key : String} {value : JsValue}
    {serialized isInline : Bool} {stackFrame : Option Frame} {s2 : SnapshotState}
    (h : addSnapshotOp s key value serialized isInline stackFrame = .ok s2) :
    s2.added = s.added ∧ s2.matched = s.matched ∧ s2.unmatched = s.unmatched
    ∧ s2.updated = s.updated ∧ s2.counters = s.counters
    ∧ s2.uncheckedKeys = s.uncheckedKeys ∧ s2.dirty = true := by
  unfold addSnapshotOp at h
  repeat split at h
  all_goals simp only [Except.ok.injEq, reduceCtorEq] at h
  all_goals subst h
  all_goals simp

/-- "Exactly one of the four running totals increments by exactly one, the
other three are unchanged." -/
def countersTotalStep (s s2 : SnapshotState) : Prop :=
  (s2.added = s.added + 1 ∧ s2.matched = s.matched ∧ s2.updated = s.updated
    ∧ s2.unmatched = s.unmatched)
  ∨ (s2.matched = s.matched + 1 ∧ s2.added = s.added ∧ s2.updated = s.updated
    ∧ s2.unmatched = s.unmatched)
  ∨ (s2.updated = s.updated + 1 ∧ s2.added = s.added ∧ s2.matched = s.matched
    ∧ s2.unmatched = s.unmatched)
  ∨ (s2.unmatched = s.unmatched + 1 ∧ s2.added = s.added ∧ s2.matched = s.matched
    ∧ s2.updated = s.updated)

/-- Every completing branch of the write-vs-report decision bumps exactly one
total. -/
theorem matchDecision_counters
    {s1 : SnapshotState} {mode : UpdateMode} {pass hasSnapshot persisted : Bool}
    {key : String} {value : JsValue} {serialized isInline : Bool}
    {stackFrame : Option Frame} {wr mr : SnapshotReturnOptions}
    {s2 : SnapshotState} {r : SnapshotReturnOptions}
    (h : matchDecision s1 mode pass hasSnapshot persisted key value serialized
          isInline stackFrame wr mr = .ok (s2, r)) :
    countersTotalStep s1 s2 := by
  unfold matchDecision at h
  repeat' split at h
  all_goals try simp only [Except.ok.injEq, Prod.mk.injEq, reduceCtorEq] at h
  all_goals obtain ⟨h1, h2⟩ := h
  all_goals subst h1
  all_goals try (simp [countersTotalStep]; done)
  all_goals obtain ⟨ha, hb, hc, hd, _⟩ := addSnapshotOp_counters (by assumption)
  all_goals simp only [countersTotalStep]
  all_goals simp_all

/-- Claim C10: every completing `match()` call increments exactly one of the
running totals `added`/`matched`/`updated`/`unmatched` by exactly one and
leaves the other three unchanged (in particular nothing is decremented), and
every `fail()` call increments only `unmatched` by exactly one. -/
theorem counters_increment_exactly_one :
    (∀ (s : SnapshotState) (fe : Bool) (o : SnapshotMatchOptions)
        (s2 : SnapshotState) (r : SnapshotReturnOptions),
        matchOp s fe o = .ok (s2, r) → countersTotalStep s s2)
    ∧ (∀ (s : SnapshotState) (t : String) (rcv : JsValue) (k : Option String),
        (failOp s t rcv k).1.unmatched = s.unmatched + 1
        ∧ (failOp s t rcv k).1.added = s.added
        ∧ (failOp s t rcv k).1.matched = s.matched
        ∧ (failOp s t rcv k).1.updated = s.updated) := by
  constructor
  · intro s fe o s2 r h
    simp only [matchOp] at h
    have hc := matchDecision_counters h
    exact hc
  · intro s t rcv k
    simp [failOp]

/-- A fresh state under `'none'` and a plain serialized external assertion. -/
def c10s : SnapshotState := initialState [] false UpdateMode.none false

/-- The options of the witness `match()` call for C10. -/
def c10o : SnapshotMatchOptions :=
  { testName := "t", received := .str "v", key := Option.none, serialized := true,
    inlineSnapshot := Option.none, isInline := false, hasInlineSnapshot := false,
    stackFrame := Option.none }

/-- The state after the witness `match()` call (the mismatch bumps
`unmatched`). -/
def c10s2 : SnapshotState :=
  { c10s with counters := [("t", 1)], unmatched := 1 }

/-- Witness for C10 at a concrete state and call. -/
theorem counters_increment_exactly_one_witness :
    countersTotalStep c10s c10s2
    ∧ (failOp c10s "t" (.str "v") Option.none).1.unmatched = c10s.unmatched + 1 :=
  ⟨counters_increment_exactly_one.1 c10s false c10o c10s2
      { actual := JsValue.str "\"v\"", actualSerialized := "\"v\"", count := 1,
        expected := JsValue.undefV, expectedSerialized := "undefined",
        hasSnapshot := false, key := "t 1", pass := false } (by decide),
   (counters_increment_exactly_one.2 c10s "t" (.str "v") Option.none).1⟩

/-- Every completing decision returns either the write/matched result object
or the mismatch result object. -/
theorem matchDecision_result
    {s1 : SnapshotState} {mode : UpdateMode} {pass hasSnapshot persisted : Bool}
    {key : String} {value : JsValue} {serialized isInline : Bool}
    {stackFrame : Option Frame} {wr mr : SnapshotReturnOptions}
    {s2 : SnapshotState} {r : SnapshotReturnOptions}
    (h : matchDecision s1 mode pass hasSnapshot persisted key value serialized
          isInline stackFrame wr mr = .ok (s2, r)) :
    r = wr ∨ r = mr := by
  unfold matchDecision at h
  repeat' split at h
  all_goals try simp only [Except.ok.injEq, Prod.mk.injEq, reduceCtorEq] at h
  all_goals obtain ⟨h1, h2⟩ := h
  all_goals subst h2
  all_goals simp

/-- Under `'none'` the decision takes the report-only branch: it bumps
`unmatched` on a mismatch or `matched` on a pass, never calling
`_addSnapshot`. -/
theorem matchDecision_none
    {s1 : SnapshotState} {pass hasSnapshot persisted : Bool}
    {key : String} {value : JsValue} {serialized isInline : Bool}
    {stackFrame : Option Frame} {wr mr : SnapshotReturnOptions}
    {s2 : SnapshotState} {r : SnapshotReturnOptions}
    (h : matchDecision s1 UpdateMode.none pass hasSnapshot persisted key value
          serialized isInline stackFrame wr mr = .ok (s2, r)) :
    (pass = false ∧ s2 = { s1 with unmatched := s1.unmatched + 1 } ∧ r = mr)
    ∨ (pass = true ∧ s2 = { s1 with matched := s1.matched + 1 } ∧ r = wr) := by
  unfold matchDecision at h
  rw [if_neg (by simp)] at h
  split at h
  · simp only [Except.ok.injEq, Prod.mk.injEq] at h
    obtain ⟨h1, h2⟩ := h
    subst h1; subst h2
    exact Or.inl ⟨by assumption, rfl, rfl⟩
  · simp only [Except.ok.injEq, Prod.mk.injEq] at h
    obtain ⟨h1, h2⟩ := h
    subst h1; subst h2
    rename_i hp
    exact Or.inr ⟨by simpa using hp, rfl, rfl⟩

/-- Under `'new'`, with no snapshot under the key and a non-inline call, the
decision always writes: `_addSnapshot` stores the value and `added`
increments — regardless of `pass` and of whether a snapshot file is
persisted. -/
theorem matchDecision_new_absent
    {s1 : SnapshotState} {pass persisted : Bool}
    {key : String} {value : JsValue} {serialized : Bool}
    {stackFrame : Option Frame} {wr mr : SnapshotReturnOptions}
    {s2 : SnapshotState} {r : SnapshotReturnOptions}
    (h : matchDecision s1 UpdateMode.new pass false persisted key value
          serialized false stackFrame wr mr = .ok (s2, r)) :
    s2 = { s1 with
           dirty := true
           snapshotData := setA key value s1.snapshotData
           added := s1.added + 1 } ∧ r = wr := by
  unfold matchDecision addSnapshotOp at h
  rw [if_pos (by simp)] at h
  rw [if_neg (by simp)] at h
  simp only [Bool.false_eq_true, if_false, Except.ok.injEq, Prod.mk.injEq] at h
  obtain ⟨h1, h2⟩ := h
  subst h1; subst h2
  exact ⟨rfl, rfl⟩

/-- `save` runs the inline patcher only when the queue is non-empty. -/
theorem saveOp_patcher_of_no_queue {s : SnapshotState} {fe : Bool}
    (h : s.inlineSnapshots = []) : (saveOp s fe).2.ranInlinePatcher = false := by
  simp only [saveOp]
  repeat' split
  all_goals simp_all

/-- Claim C2 (amended).  Under update policy `'none'`, `match()` never calls
`_addSnapshot`: the inline queue and the dirty flag are untouched (so, with
an empty queue, a later `save()` never hands records to the patcher and no
source file is ever rewritten) — but a passing non-inline `match()` still
stores the freshly computed value into the in-memory mapping at the resolved
key (State.ts line 310, unconditional on the policy), and `save()` still
persists the companion file whenever the state is dirty or unchecked keys
remain and the mapping is non-empty
(`none_mode_save_writes_companion_counterexample` refutes the original
claim's "save() never persists"). -/
theorem none_mode_match_and_save_amended
    (s : SnapshotState) (fe : Bool) (o : SnapshotMatchOptions)
    (s2 : SnapshotState) (r : SnapshotReturnOptions)
    (hmode : s.updateSnapshot = UpdateMode.none)
    (h : matchOp s fe o = .ok (s2, r)) :
    s2.inlineSnapshots = s.inlineSnapshots
    ∧ s2.dirty = s.dirty
    ∧ (s2.snapshotData = s.snapshotData
        ∨ (r.pass = true ∧ o.isInline = false
            ∧ ∃ v, s2.snapshotData = setA r.key v s.snapshotData))
    ∧ (s.inlineSnapshots = [] → ∀ fe2 : Bool, (saveOp s2 fe2).2.ranInlinePatcher = false) := by
  simp only [matchOp, hmode] at h
  have hres := matchDecision_none h
  rcases hres with ⟨hpass, rfl, rfl⟩ | ⟨hpass, rfl, rfl⟩
  · refine ⟨rfl, rfl, Or.inl ?_, fun hq _ => saveOp_patcher_of_no_queue (by simpa using hq)⟩
    simp only [hpass, Bool.false_and, Bool.false_eq_true, if_false]
  · refine ⟨rfl, rfl, ?_, fun hq _ => saveOp_patcher_of_no_queue (by simpa using hq)⟩
    by_cases hinl : o.isInline = true
    · exact Or.inl (by simp [hinl])
    · have hinl2 : o.isInline = false := by simpa using hinl
      refine Or.inr ⟨rfl, hinl2, ?_⟩
      simp only [hinl2] at hpass ⊢
      cases hser : o.serialized <;> simp [hser] at hpass ⊢ <;>
        simp only [hpass, if_true, if_pos] <;> exact ⟨_, rfl⟩

/-- A run under `'none'` whose companion file holds one snapshot. -/
def c2s : SnapshotState := initialState [("a 1", JsValue.str "x")] false UpdateMode.none false

/-- The options of the witness `match()` call for C2. -/
def c2o : SnapshotMatchOptions :=
  { testName := "t", received := .str "v", key := Option.none, serialized := true,
    inlineSnapshot := Option.none, isInline := false, hasInlineSnapshot := false,
    stackFrame := Option.none }

/-- The state after the witness `match()` call for C2 (a mismatch). -/
def c2s2 : SnapshotState :=
  { c2s with counters := [("t", 1)], unmatched := 1 }

/-- The result of the witness `match()` call for C2. -/
def c2r : SnapshotReturnOptions :=
  { actual := JsValue.str "\"v\"", actualSerialized := "\"v\"", count := 1,
    expected := JsValue.undefV, expectedSerialized := "undefined",
    hasSnapshot := false, key := "t 1", pass := false }

/-- Witness for C2 (amended) at a concrete `'none'`-mode call. -/
theorem none_mode_match_and_save_amended_witness :
    c2s2.inlineSnapshots = c2s.inlineSnapshots
    ∧ c2s2.dirty = c2s.dirty
    ∧ (saveOp c2s2 true).2.ranInlinePatcher = false := by
  have h := none_mode_match_and_save_amended c2s true c2o c2s2 c2r rfl (by decide)
  exact ⟨h.1, h.2.1, h.2.2.2 rfl true⟩

/-- Counterexample for C2 as stated: under `'none'`, a run with a loaded
non-empty mapping and no `match()` call at all still persists the companion
file on `save()` (the initial unchecked keys and non-empty mapping take the
write branch; `saveSnapshotFile` runs with no policy check). -/
theorem none_mode_save_writes_companion_counterexample :
    c2s.updateSnapshot = UpdateMode.none
    ∧ saveOp c2s true
      = ({ deleted := false, saved := true },
         { wroteSnapshotFile := true, ranInlinePatcher := false,
           unlinkedSnapshotFile := false }) := by decide

/-- Claim C3 (amended).  Under update policy `'new'`, a non-inline `match()`
whose resolved key has no entry in the mapping ALWAYS writes the snapshot and
increments `added` — whether or not a snapshot file is already persisted
(`fe` is universally quantified); `unmatched` is unchanged.  The original
claim's second arm — "compared and `unmatched` increments when a snapshot is
already persisted" — never happens for an absent key:
`new_mode_persisted_absent_key_counterexample` refutes it. -/
theorem new_mode_absent_key_always_added
    (s : SnapshotState) (fe : Bool) (o : SnapshotMatchOptions)
    (s2 : SnapshotState) (r : SnapshotReturnOptions)
    (hmode : s.updateSnapshot = UpdateMode.new)
    (hinline : o.isInline = false)
    (h : matchOp s fe o = .ok (s2, r))
    (habsent : lookupA r.key s.snapshotData = Option.none) :
    s2.added = s.added + 1 ∧ s2.unmatched = s.unmatched ∧ s2.matched = s.matched
    ∧ s2.updated = s.updated ∧ (lookupA r.key s2.snapshotData).isSome = true
    ∧ s2.dirty = true ∧ r.pass = true := by
  simp only [matchOp, hmode, hinline, Bool.false_eq_true, if_false, Bool.not_false,
    Bool.and_true] at h
  have hres := matchDecision_result h
  rcases hres with rfl | rfl
  · dsimp only at habsent
    rw [habsent] at h
    simp only [Option.isSome_none, Option.getD_none] at h
    have hnew := matchDecision_new_absent h
    obtain ⟨hs2, -⟩ := hnew
    subst hs2
    refine ⟨by simp, by simp, by simp, by simp, ?_, by simp, rfl⟩
    dsimp only
    rw [lookupA_setA_self]
    rfl
  · dsimp only at habsent
    rw [habsent] at h
    simp only [Option.isSome_none, Option.getD_none] at h
    have hnew := matchDecision_new_absent h
    exact absurd hnew.2 (by simp)

/-- A run under `'new'` whose persisted companion file holds an unrelated
key. -/
def c3s : SnapshotState := initialState [("other 1", .str "y")] false UpdateMode.new false

/-- The options of the witness `match()` call for C3: external, serialized,
key resolved to the absent `"t 1"`. -/
def c3o : SnapshotMatchOptions :=
  { testName := "t", received := .str "v", key := Option.none, serialized := true,
    inlineSnapshot := Option.none, isInline := false, hasInlineSnapshot := false,
    stackFrame := Option.none }

/-- The state after the C3 witness call: the snapshot was written and `added`
incremented although the companion file was persisted. -/
def c3s2 : SnapshotState :=
  { c3s with
    counters := [("t", 1)]
    dirty := true
    snapshotData := [("other 1", JsValue.str "y"), ("t 1", JsValue.str "\"v\"")]
    added := 1 }

/-- The result of the C3 witness call. -/
def c3r : SnapshotReturnOptions :=
  { actual := JsValue.str "", actualSerialized := "", count := 1,
    expected := JsValue.str "", expectedSerialized := "",
    hasSnapshot := false, key := "t 1", pass := true }

/-- Witness for C3 (amended) at a concrete call with the file persisted. -/
theorem new_mode_absent_key_always_added_witness :
    c3s2.added = c3s.added + 1 ∧ c3s2.unmatched = c3s.unmatched
    ∧ c3s2.matched = c3s.matched ∧ c3s2.updated = c3s.updated
    ∧ (lookupA c3r.key c3s2.snapshotData).isSome = true
    ∧ c3s2.dirty = true ∧ c3r.pass = true :=
  new_mode_absent_key_always_added c3s true c3o c3s2 c3r rfl rfl (by decide) (by decide)

/-- Counterexample for C3 as stated: the key `"t 1"` is absent while a
snapshot file IS persisted (`fileExists = true`), yet the call writes the
snapshot and counts `added` — `unmatched` stays 0, where the claim demands a
comparison counting `unmatched`. -/
theorem new_mode_persisted_absent_key_counterexample :
    lookupA "t 1" c3s.snapshotData = Option.none
    ∧ (matchOp c3s true c3o).map
        (fun p => (p.1.added, p.1.unmatched, (lookupA "t 1" p.1.snapshotData).isSome, p.2.pass))
      = .ok (1, 0, true, true) := by decide

/-- A record with the given frame key at array index `i` puts `base + i` into
the group computed from `base`. -/
theorem mem_groupIdxFrom_of_get :
    ∀ (l : List InlineSnapshot) (k : String) (base i : Nat) (r : InlineSnapshot),
      l.get? i = some r → frameKey r = k → (base + i) ∈ groupIdxFrom base k l := by
  intro l
  induction l with
  | nil => intro k base i r hget; simp at hget
  | cons r0 rest ih =>
    intro k base i r hget hkey
    cases i with
    | zero =>
      simp only [List.get?] at hget
      obtain rfl : r0 = r := by injection hget
      simp [groupIdxFrom, hkey]
    | succ j =>
      simp only [List.get?] at hget
      have hmem := ih k (base + 1) j r hget hkey
      have harith : base + (j + 1) = (base + 1) + j := by omega
      rw [harith]
      by_cases h0 : frameKey r0 = k <;> simp [groupIdxFrom, h0, hmem]

/-- A list containing two distinct elements has at least two entries. -/
theorem two_mem_length {l : List Nat} {a b : Nat}
    (ha : a ∈ l) (hb : b ∈ l) (hne : a ≠ b) : 2 ≤ l.length := by
  cases l with
  | nil => simp at ha
  | cons x rest =>
    cases rest with
    | nil =>
      rw [List.mem_singleton] at ha hb
      exact absurd (ha.trans hb.symm) hne
    | cons y rest2 => simp

/-- If any visited call expression has a snapshot group of two or more
records, the traversal throws the multiple-inline-snapshots error — whatever
happened at the earlier nodes. -/
theorem visitNodes_multiple (orig : List InlineSnapshot) :
    ∀ (ns : List CallNode) (recs : List InlineSnapshot) (remaining : List String),
      (∃ n ∈ ns, n.calleeOk = true ∧ 2 ≤ (groupIdx orig (nodeKey n)).length) →
      visitNodes orig ns recs remaining
        = .error "Jest: Multiple inline snapshots for the same call are not supported." := by
  intro ns
  induction ns with
  | nil => intro recs remaining h; simp at h
  | cons m rest ih =>
    intro recs remaining h
    obtain ⟨n, hn, hok, hlen⟩ := h
    rcases List.mem_cons.mp hn with rfl | hrest
    · rcases hg : groupIdx orig (nodeKey n) with _ | ⟨i, _ | ⟨j, tail⟩⟩
      · rw [hg] at hlen; simp at hlen
      · rw [hg] at hlen; simp at hlen
      · simp only [visitNodes, hok, Bool.true_eq_false, if_false]
        rw [hg]
    · cases hco : m.calleeOk with
      | false => simp only [visitNodes, hco]; exact ih _ _ ⟨n, hrest, hok, hlen⟩
      | true =>
        rcases hg : groupIdx orig (nodeKey m) with _ | ⟨i, _ | ⟨j, tail⟩⟩
        · simp only [visitNodes, hco, Bool.true_eq_false, if_false]
          rw [hg]
          exact ih _ _ ⟨n, hrest, hok, hlen⟩
        · simp only [visitNodes, hco, Bool.true_eq_false, if_false]
          rw [hg]
          exact ih _ _ ⟨n, hrest, hok, hlen⟩
        · simp only [visitNodes, hco, Bool.true_eq_false, if_false]
          rw [hg]

/-- Claim C8: if two pending records of one file resolve to the same call
position — their frame keys agree and a visited call expression (member
callee with identifier property) carries that position — applying the
patcher to the file raises the fatal multiple-inline-snapshots error.  The
`Except.error` aborts `saveSnapshotsForFile` before its splice and
`fs.writeFileSync` step (the only write, carried in the `ok` outcome), so
the source file on disk is unchanged. -/
theorem multiple_inline_snapshots_fatal
    (gen : PatchedNode → String) (snapshots : List InlineSnapshot)
    (sourceFile : String) (ast : List CallNode)
    (i j : Nat) (ri rj : InlineSnapshot) (n : CallNode)
    (hi : snapshots.get? i = some ri) (hj : snapshots.get? j = some rj)
    (hij : i ≠ j) (hkey : frameKey ri = frameKey rj)
    (hn : n ∈ ast) (hok : n.calleeOk = true) (hnk : nodeKey n = frameKey ri) :
    saveSnapshotsForFile gen snapshots sourceFile ast
      = .error "Jest: Multiple inline snapshots for the same call are not supported." := by
  have hmi : i ∈ groupIdx snapshots (nodeKey n) := by
    have := mem_groupIdxFrom_of_get snapshots (nodeKey n) 0 i ri hi (by rw [hnk])
    simpa [groupIdx] using this
  have hmj : j ∈ groupIdx snapshots (nodeKey n) := by
    have := mem_groupIdxFrom_of_get snapshots (nodeKey n) 0 j rj hj
      (by rw [hnk]; exact hkey.symm)
    simpa [groupIdx] using this
  have hlen := two_mem_length hmi hmj hij
  have htrav := visitNodes_multiple snapshots ast snapshots
    (snapshots.map InlineSnapshot.snapshot) ⟨n, hn, hok, hlen⟩
  unfold saveSnapshotsForFile traverseAst
  rw [htrav]

/-- Two records targeting the same call position for the C8 witness. -/
def c8q1 : InlineSnapshot :=
  { snapshot := "x", frame := { file := "f.js", line := 3, column := 5 } }

/-- Second record of the C8 witness, same position as `c8q1`. -/
def c8q2 : InlineSnapshot :=
  { snapshot := "y", frame := { file := "f.js", line := 3, column := 5 } }

/-- The call expression at that position for the C8 witness. -/
def c8node : CallNode :=
  { calleeOk := true, propLine := 3, propColumn := 4, args := [],
    nodeStart := 0, nodeEnd := 4 }

/-- Witness for C8 at a concrete two-record conflict. -/
theorem multiple_inline_snapshots_fatal_witness :
    saveSnapshotsForFile (fun _ => "GEN") [c8q1, c8q2] "source" [c8node]
      = .error "Jest: Multiple inline snapshots for the same call are not supported." :=
  multiple_inline_snapshots_fatal (fun _ => "GEN") [c8q1, c8q2] "source" [c8node]
    0 1 c8q1 c8q2 c8node rfl rfl (by decide) rfl (by simp) rfl rfl

/-- A group over records none of which carries the key is empty. -/
theorem groupIdxFrom_nil_of_no_key :
    ∀ (l : List InlineSnapshot) (k : String) (base : Nat),
      (∀ r2 ∈ l, frameKey r2 ≠ k) → groupIdxFrom base k l = [] := by
  intro l
  induction l with
  | nil => intro k base _; rfl
  | cons r rest ih =>
    intro k base h
    have hr : frameKey r ≠ k := h r (by simp)
    simp only [groupIdxFrom, hr, if_false]
    exact ih k (base + 1) (fun r2 hm => h r2 (by simp [hm]))

/-- With pairwise distinct frame keys every group is a singleton at most. -/
theorem groupIdx_len_le_one_of_pairwise :
    ∀ (l : List InlineSnapshot),
      List.Pairwise (fun a b => frameKey a ≠ frameKey b) l →
      ∀ (k : String) (base : Nat), (groupIdxFrom base k l).length ≤ 1 := by
  intro l
  induction l with
  | nil => intro _ k base; simp [groupIdxFrom]
  | cons r rest ih =>
    intro hpw k base
    rw [List.pairwise_cons] at hpw
    by_cases hr : frameKey r = k
    · have hnil : groupIdxFrom (base + 1) k rest = [] :=
        groupIdxFrom_nil_of_no_key rest k (base + 1)
          (fun r2 hm heq => hpw.1 r2 hm (hr.trans heq.symm))
      simp [groupIdxFrom, hr, hnil]
    · simp only [groupIdxFrom, hr, if_false]
      exact ih hpw.2 k (base + 1)

/-- Every index in a group addresses a record with that frame key. -/
theorem mem_of_groupIdxFrom :
    ∀ (l : List InlineSnapshot) (k : String) (base i : Nat),
      i ∈ groupIdxFrom base k l →
      ∃ (j : Nat) (r : InlineSnapshot),
        i = base + j ∧ l.get? j = some r ∧ frameKey r = k := by
  intro l
  induction l with
  | nil => intro k base i h; simp [groupIdxFrom] at h
  | cons r0 rest ih =>
    intro k base i h
    by_cases h0 : frameKey r0 = k
    · simp only [groupIdxFrom, h0, if_pos, List.mem_cons] at h
      rcases h with rfl | h
      · exact ⟨0, r0, by omega, rfl, h0⟩
      · obtain ⟨j, r, hij, hget, hk⟩ := ih k (base + 1) i h
        exact ⟨j + 1, r, by omega, by simpa [List.get?] using hget, hk⟩
    · simp only [groupIdxFrom, h0, if_false] at h
      obtain ⟨j, r, hij, hget, hk⟩ := ih k (base + 1) i h
      exact ⟨j + 1, r, by omega, by simpa [List.get?] using hget, hk⟩

/-- Core of the C5 analysis: when the groups are at most singletons (no
multiple-snapshots throw) and no visited node binds any record carrying the
text `t`, the traversal completes and `t` survives in `remainingSnapshots`. -/
theorem visitNodes_keeps_text (orig : List InlineSnapshot)
    (hgrp : ∀ key, (groupIdx orig key).length ≤ 1) (t : String) :
    ∀ (ns : List CallNode),
      (∀ n ∈ ns, n.calleeOk = true →
        ∀ (j : Nat) (r2 : InlineSnapshot), orig.get? j = some r2 →
          frameKey r2 = nodeKey n → r2.snapshot ≠ t) →
      ∀ (recs : List InlineSnapshot) (remaining : List String), t ∈ remaining →
        ∃ recs2 remaining2,
          visitNodes orig ns recs remaining = .ok (recs2, remaining2) ∧ t ∈ remaining2 := by
  intro ns
  induction ns with
  | nil => intro _ recs remaining ht; exact ⟨recs, remaining, rfl, ht⟩
  | cons m rest ih =>
    intro hnot recs remaining ht
    cases hco : m.calleeOk with
    | false =>
      simp only [visitNodes, hco]
      exact ih (fun n hn => hnot n (List.mem_cons_of_mem _ hn)) recs remaining ht
    | true =>
      rcases hg : groupIdx orig (nodeKey m) with _ | ⟨i, _ | ⟨i2, tail2⟩⟩
      · simp only [visitNodes, hco, Bool.true_eq_false, if_false]
        rw [hg]
        exact ih (fun n hn => hnot n (List.mem_cons_of_mem _ hn)) recs remaining ht
      · simp only [visitNodes, hco, Bool.true_eq_false, if_false]
        rw [hg]
        have hmemi : i ∈ groupIdx orig (nodeKey m) := by rw [hg]; simp
        obtain ⟨j, r2, hij, hget, hk⟩ :=
          mem_of_groupIdxFrom orig (nodeKey m) 0 i (by simpa [groupIdx] using hmemi)
        have hij2 : i = j := by omega
        subst hij2
        have hne : r2.snapshot ≠ t := hnot m (by simp) hco i r2 hget hk
        have htext : ((orig.get? i).map InlineSnapshot.snapshot).getD "" = r2.snapshot := by
          rw [hget]; rfl
        have ht2 : t ∈ remaining.filter
            (fun t2 => t2 ≠ ((orig.get? i).map InlineSnapshot.snapshot).getD "") := by
          rw [List.mem_filter]
          refine ⟨ht, ?_⟩
          rw [htext]
          simpa using fun he => hne he.symm
        exact ih (fun n hn => hnot n (List.mem_cons_of_mem _ hn)) _ _ ht2
      · exfalso
        have hle := hgrp (nodeKey m)
        rw [hg] at hle
        simp at hle

/-- Claim C5 (amended).  The after-traversal verification is per snapshot
TEXT, not per record (`remainingSnapshots` is a `Set` of the texts): under
pairwise distinct frame keys (so no multiple-snapshots throw), if some
pending record's text is bound for no record — no record carrying an equal
text has a frame matching any visited call — the traversal raises the fatal
"Couldn\x27t locate all inline snapshots" error.  An unbound record whose text
was also carried by a record that DID bind escapes this check — the original
claim's "including when another record carrying the same snapshot text was
bound" is refuted by `duplicate_text_unbound_record_counterexample`, where
the later splice fails with "no snapshot insert location found" instead. -/
theorem unlocated_snapshot_text_is_fatal
    (snapshots : List InlineSnapshot) (ast : List CallNode) (rec : InlineSnapshot)
    (hpw : List.Pairwise (fun a b => frameKey a ≠ frameKey b) snapshots)
    (hmem : rec ∈ snapshots)
    (hnot : ∀ rec2 ∈ snapshots, rec2.snapshot = rec.snapshot →
            ∀ n ∈ ast, n.calleeOk = true → nodeKey n ≠ frameKey rec2) :
    traverseAst snapshots ast = .error "Jest: Couldn\x27t locate all inline snapshots." := by
  have hgrp : ∀ key, (groupIdx snapshots key).length ≤ 1 :=
    fun key => groupIdx_len_le_one_of_pairwise snapshots hpw key 0
  have hinit : rec.snapshot ∈ snapshots.map InlineSnapshot.snapshot :=
    List.mem_map_of_mem _ hmem
  have hnot2 : ∀ n ∈ ast, n.calleeOk = true →
      ∀ (j : Nat) (r2 : InlineSnapshot), snapshots.get? j = some r2 →
        frameKey r2 = nodeKey n → r2.snapshot ≠ rec.snapshot := by
    intro n hn hok j r2 hget hkey heq
    have hr2mem : r2 ∈ snapshots := List.get?_mem hget
    exact hnot r2 hr2mem heq n hn hok hkey.symm
  obtain ⟨recs2, remaining2, hok2, htm⟩ :=
    visitNodes_keeps_text snapshots hgrp rec.snapshot ast hnot2 snapshots
      (snapshots.map InlineSnapshot.snapshot) hinit
  unfold traverseAst
  rw [hok2]
  have hlen : remaining2.length ≠ 0 := by
    cases remaining2
    · simp at htm
    · simp
  simp [hlen]

/-- A pending record bound by no call expression for the C5 witness. -/
def c5w : InlineSnapshot :=
  { snapshot := "w", frame := { file := "f.js", line := 1, column := 1 } }

/-- Witness for C5 (amended): a record whose text matches nothing is fatal. -/
theorem unlocated_snapshot_text_is_fatal_witness :
    traverseAst [c5w] [] = .error "Jest: Couldn\x27t locate all inline snapshots." :=
  unlocated_snapshot_text_is_fatal [c5w] [] c5w (by simp) (by simp) (by simp)

/-- First record of the C5 counterexample: binds at the only call. -/
def c5r1 : InlineSnapshot :=
  { snapshot := "x", frame := { file := "f.js", line := 3, column := 5 } }

/-- Second record of the C5 counterexample: same text as `c5r1`, position
matching no call, hence left unbound. -/
def c5r2 : InlineSnapshot :=
  { snapshot := "x", frame := { file := "f.js", line := 9, column := 5 } }

/-- The only call expression of the C5 counterexample file, at `c5r1`'s
position. -/
def c5node : CallNode :=
  { calleeOk := true, propLine := 3, propColumn := 4, args := [],
    nodeStart := 0, nodeEnd := 4 }

/-- Counterexample for C5 as stated: `c5r2` stays unbound (its `node` is
still `none` after the traversal), yet `traverseAst` does NOT raise the
couldn\x27t-locate error, because `c5r1` carried the same text and its binding
deleted that text from the set; the batch then fails later, in the splice,
with the different error "no snapshot insert location found". -/
theorem duplicate_text_unbound_record_counterexample :
    (traverseAst [c5r1, c5r2] [c5node]).map
        (fun rs => rs.map (fun r2 => r2.node.isSome)) = .ok [true, false]
    ∧ saveSnapshotsForFile (fun _ => "GEN") [c5r1, c5r2] "abcdefgh" [c5node]
        = .error "Jest: no snapshot insert location found" := by decide
